import Mathlib

/-
Verification development for the RAG engine core
(`04-rag/rag_engine`: `chunking.py`, `indexer.py`, `retriever.py`,
`embeddings.py`).

Modelling conventions
---------------------
* Sentences and chunks are manipulated by the Python code exclusively through
  whitespace tokenization (`s.split()`, `" ".join(...)`, `len(s.split())`).
  The chunking model therefore represents a sentence or a chunk by its list of
  whitespace tokens (`List Word`); `" ".join(window).strip()` becomes
  `List.flatten`, `len(s.split())` becomes `List.length`.  Every property in
  the claims about chunks (word counts, word sequences) is a property of these
  token lists.
* Python `str` values that are scanned character by character
  (`split_sentences`) are modelled as `List Char` (`PyStr`), with Python's
  `str.strip` / `re.split` translated to explicit recursions.
* Python exceptions become `Except` values; the spec's error taxonomy
  (ConfigError, UnknownBackendError, MissingVectorizerError,
  DimensionMismatchError) is the spec's name for the `ValueError` /
  `RuntimeError` values raised by the code, and the model carries the code's
  literal messages.
* `numpy.float32` matrix entries are represented by their 32-bit patterns
  (`Nat`) where only persistence fidelity matters (`save_index`/`load_index`:
  pickle stores the array bytes verbatim, so bit patterns are preserved), and
  by `ℚ` where their ordering matters (retriever scores).  The cosine kernel
  itself is float arithmetic inside scikit-learn; the retriever model is
  parametric in the similarity kernel, and every ranking/counting theorem is
  proved for all kernels.
* `np.argsort` (default kind, quicksort/introsort) is documented as *not*
  stable; its contract only promises some index permutation ordering the
  array.  The search result is therefore modelled relationally
  (`IsArgsortDesc` / `searchRel`): any permutation arranging the scores in
  non-increasing order is an admissible value of `np.argsort(-sims)`.
-/

namespace RagSpec

instance {ε α : Type} [DecidableEq ε] [DecidableEq α] : DecidableEq (Except ε α) := fun x y =>
  match x, y with
  | .ok a, .ok b =>
    if h : a = b then .isTrue (by rw [h]) else .isFalse (by intro hc; cases hc; exact h rfl)
  | .error a, .error b =>
    if h : a = b then .isTrue (by rw [h]) else .isFalse (by intro hc; cases hc; exact h rfl)
  | .ok _, .error _ => .isFalse (by intro hc; cases hc)
  | .error _, .ok _ => .isFalse (by intro hc; cases hc)

/-! ## Windower (`chunking.make_chunks`) -/

/-- A whitespace token of a sentence (an element of Python's `s.split()`). -/
abbrev Word := String

/-- Errors raised by `make_chunks`; the spec calls the `ValueError`s raised by
invalid `chunk_size`/`overlap` a `ConfigError`.  The payload is the code's
literal message. -/
inductive ChunkError where
  | configError (msg : String)
deriving DecidableEq, Repr

/-- Hard split of an over-long sentence, from
`for i in range(0, len(words), chunk_size): seg = words[i:i+chunk_size]`.
The `cs = 0` branch is unreachable from `make_chunks` (validation guarantees
`chunk_size ≥ 1`; Python's `range` with step 0 would raise). -/
def groupWordsFuel (cs : Nat) : Nat → List Word → List (List Word)
  | _, [] => []
  | 0, _ :: _ => []
  | fuel + 1, a :: rest => (a :: rest).take cs :: groupWordsFuel cs fuel ((a :: rest).drop cs)

/-- With `cs ≥ 1` each recursive call removes at least one word, so
`l.length` is always enough fuel; the `cs = 0` guard is unreachable from
`make_chunks` (validation guarantees `chunk_size ≥ 1`; Python's `range` with
step 0 would raise). -/
def groupWords (cs : Nat) (l : List Word) : List (List Word) :=
  if cs = 0 then [] else groupWordsFuel cs l.length l

/-- Python `tail[-overlap:]`: the last `min ov (l.length)` elements. -/
def lastN (ov : Nat) (l : List Word) : List Word := l.drop (l.length - ov)

/-- The loop state of `make_chunks`: the emitted `chunks`, the current
`window` (a list of buffered sentences, each a token list) and the running
word `count`. -/
structure WinState where
  chunks : List (List Word)
  window : List (List Word)
  count : Nat
deriving DecidableEq, Repr

/-- Model of `" ".join(window).strip()` viewed through whitespace tokens:
the concatenation of the buffered sentences' tokens. -/
def joinWindow (w : List (List Word)) : List Word := w.flatten

/-- Model of `if window: chunks.append(" ".join(window).strip())`. -/
def flushChunks (st : WinState) : List (List Word) :=
  if st.window = [] then st.chunks else st.chunks ++ [joinWindow st.window]

/-- Model of the overlap seeding after a flush:
`if overlap > 0 and chunks: tail = chunks[-1].split();
window = [" ".join(tail[-overlap:])] if tail else [];
count = _words(window[0]) if window else 0`. -/
def seedWindow (ov : Nat) (chunks1 : List (List Word)) : List (List Word) × Nat :=
  if 0 < ov ∧ chunks1 ≠ [] then
    if chunks1.getLastD [] = [] then ([], 0)
    else ([lastN ov (chunks1.getLastD [])], (lastN ov (chunks1.getLastD [])).length)
  else ([], 0)

/-- One iteration of the `for s in sentences` loop of `make_chunks`.  In the
source the overlap seeding runs right after the flush and its result is
overwritten in the hard-split branch; `seedWindow` being pure, it is invoked
here only in the branch that uses its result. -/
def stepSentence (cs ov : Nat) (st : WinState) (s : List Word) : WinState :=
  if st.count + s.length ≤ cs then
    ⟨st.chunks, st.window ++ [s], st.count + s.length⟩
  else if cs < s.length then
    ⟨flushChunks st ++ groupWords cs s, [], 0⟩
  else
    ⟨flushChunks st, (seedWindow ov (flushChunks st)).1 ++ [s],
      (seedWindow ov (flushChunks st)).2 + s.length⟩

/-- The loop plus the trailing `if window: chunks.append(...)`. -/
def make_chunksCore (cs ov : Nat) (sentences : List (List Word)) : List (List Word) :=
  flushChunks (sentences.foldl (stepSentence cs ov) ⟨[], [], 0⟩)

/-- `chunking.make_chunks`, on whitespace-token sentences.  The two guards are
exactly the two `raise ValueError(...)` validations of the source; there is no
guard relating `overlap` to `chunk_size`. -/
def make_chunks (sentences : List (List Word)) (chunk_size overlap : Int) :
    Except ChunkError (List (List Word)) :=
  if chunk_size ≤ 0 then .error (.configError "chunk_size must be > 0")
  else if overlap < 0 then .error (.configError "overlap must be >= 0")
  else .ok (make_chunksCore chunk_size.toNat overlap.toNat sentences)

/-- The loop invariant of `make_chunks`: the running count is the word count
of the buffered window, it never exceeds `chunk_size + overlap`, and neither
does the word count of any emitted chunk. -/
def ChunkInv (cs ov : Nat) (st : WinState) : Prop :=
  st.count = (joinWindow st.window).length ∧ st.count ≤ cs + ov ∧
    ∀ c ∈ st.chunks, c.length ≤ cs + ov

/-! ## Segmenter (`chunking.split_sentences`) -/

/-- A Python string scanned character by character. -/
abbrev PyStr := List Char

/-- The whitespace class shared by Python's `str.strip()` (no argument) and
the regex class `\s`, restricted to its ASCII members (the inputs the claims
range over). -/
def isPySpace (c : Char) : Bool :=
  c = ' ' || c = '\t' || c = '\n' || c = '\r' || c = '\x0b' || c = '\x0c'

/-- Python `s.strip()`: drop leading and trailing whitespace. -/
def pyStrip (l : PyStr) : PyStr := (l.dropWhile isPySpace).rdropWhile isPySpace

/-- The lookbehind class of `_EN_SENT_SPLIT = (?<=[.!?])\s+`. -/
def isEnTerm (c : Char) : Bool := c = '.' || c = '!' || c = '?'

/-- Model of `re.split(r"(?<=[.!?])\s+", text)`: cut at every maximal
whitespace run whose first character is immediately preceded by `.`, `!` or
`?`; the matched whitespace is consumed.  `cur` holds the characters of the
current part in reverse. -/
def enSplitGo : Nat → PyStr → PyStr → List PyStr
  | _, cur, [] => [cur.reverse]
  | 0, cur, _ :: _ => [cur.reverse]
  | fuel + 1, cur, c :: rest =>
    if isPySpace c && (match cur with | p :: _ => isEnTerm p | [] => false) then
      cur.reverse :: enSplitGo fuel [] (rest.dropWhile isPySpace)
    else
      enSplitGo fuel (c :: cur) rest

/-- Every scan step consumes at least one input character, so `l.length` is
always enough fuel and the fuel-exhausted branch is unreachable. -/
def enSplit (l : PyStr) : List PyStr := enSplitGo l.length [] l

/-- The character class of the Persian fallback pattern `[\n\r.۔]+`. -/
def isFaTerm (c : Char) : Bool := c = '\n' || c = '\r' || c = '.' || c = '۔'

/-- Model of `re.split(r"[\n\r.۔]+\s*", text)`: each match is a maximal
run of terminator characters followed by a maximal run of whitespace; both are
consumed at the cut. -/
def faSplitGo : Nat → PyStr → PyStr → List PyStr
  | _, cur, [] => [cur.reverse]
  | 0, cur, _ :: _ => [cur.reverse]
  | fuel + 1, cur, c :: rest =>
    if isFaTerm c then
      cur.reverse :: faSplitGo fuel [] ((rest.dropWhile isFaTerm).dropWhile isPySpace)
    else
      faSplitGo fuel (c :: cur) rest

/-- Every scan step consumes at least one input character, so `l.length` is
always enough fuel and the fuel-exhausted branch is unreachable. -/
def faSplit (l : PyStr) : List PyStr := faSplitGo l.length [] l

/-- Model of the comprehension `[p.strip() for p in parts if p.strip()]`. -/
def cleanParts (parts : List PyStr) : List PyStr :=
  (parts.map pyStrip).filter (fun p => !p.isEmpty)

/-- Python `str.lower()` on the characters the claims use (ASCII). -/
def pyLowerChars (l : PyStr) : PyStr := l.map Char.toLower

/-- Python `(lang or "").lower().startswith("fa")`. -/
def startsWithFa (l : PyStr) : Bool :=
  match pyLowerChars l with
  | 'f' :: 'a' :: _ => true
  | _ => false

/-- `chunking.split_sentences`.  The optional `hazm` pipeline is environment
dependent: `hazmOk` models `_HAZM_OK`, and `sentTok` / `normalize` are the
library's `sent_tokenize` / `Normalizer().normalize`, left abstract — every
claimed property holds for all of them.  `text` and `lang` are `Option`al to
model Python `None` (the code evaluates `text or ""` and `lang or ""`). -/
def split_sentences (hazmOk : Bool) (sentTok : PyStr → List PyStr)
    (normalize : PyStr → PyStr) (text : Option PyStr) (lang : Option PyStr) :
    List PyStr :=
  if (pyStrip (text.getD [])).isEmpty then []
  else if startsWithFa (lang.getD []) then
    if hazmOk then cleanParts (sentTok (normalize (pyStrip (text.getD []))))
    else cleanParts (faSplit (pyStrip (text.getD [])))
  else cleanParts (enSplit (pyStrip (text.getD [])))

/-! ## Index data model (`indexer.build_index` result shape) -/

/-- The `meta` sub-dict of the pickled index. -/
structure Meta where
  lang : String
  emb : String
  chunk_size : Int
  overlap : Int
deriving DecidableEq, Repr

/-- Modelled fitted state of `sklearn.TfidfVectorizer`: the object is opaque
to the repository (pickled verbatim); it is represented here by a serializable
payload standing for its learned vocabulary and per-term weights. -/
structure Vectorizer where
  vocab : List (String × Nat)
  idf : List Int
deriving DecidableEq, Repr

/-- The index dict assembled by `build_index`, parametric in the scalar type
used to read the `numpy.float32` matrix entries: `Nat` (32-bit patterns) for
persistence claims, `ℚ` (numeric values) for retrieval claims. -/
structure Index (α : Type) where
  meta : Meta
  chunks : List String
  vectors : List (List α)
  tfidf_vectorizer : Option Vectorizer
deriving DecidableEq

/-! ## Index persistence (`indexer.save_index` / `indexer.load_index`)

`save_index` writes `pickle.dump(index, f)` and `load_index` returns
`pickle.load(f)`.  For the value types in the index dict (strings, ints, a
`numpy.float32` array stored byte-for-byte, the pickled vectorizer object)
pickle is an exact round-tripping serializer.  The blob is modelled as a
token list and the pickle protocol by an explicit codec. -/

inductive Tok where
  | tn (x : Nat)
  | ts (x : String)
  | ti (x : Int)
deriving DecidableEq, Repr

def encNat (x : Nat) : List Tok := [Tok.tn x]

def decNat : List Tok → Option (Nat × List Tok)
  | Tok.tn x :: r => some (x, r)
  | _ => none

def encStr (x : String) : List Tok := [Tok.ts x]

def decStr : List Tok → Option (String × List Tok)
  | Tok.ts x :: r => some (x, r)
  | _ => none

def encInt (x : Int) : List Tok := [Tok.ti x]

def decInt : List Tok → Option (Int × List Tok)
  | Tok.ti x :: r => some (x, r)
  | _ => none

def encList {α : Type} (enc : α → List Tok) (l : List α) : List Tok :=
  Tok.tn l.length :: (l.map enc).flatten

def decListAux {α : Type} (dec : List Tok → Option (α × List Tok)) :
    Nat → List Tok → Option (List α × List Tok)
  | 0, r => some ([], r)
  | n + 1, r =>
    match dec r with
    | none => none
    | some (a, r1) =>
      match decListAux dec n r1 with
      | none => none
      | some (as, r2) => some (a :: as, r2)

def decList {α : Type} (dec : List Tok → Option (α × List Tok)) (r : List Tok) :
    Option (List α × List Tok) :=
  match decNat r with
  | none => none
  | some (n, r1) => decListAux dec n r1

def encOpt {α : Type} (enc : α → List Tok) : Option α → List Tok
  | none => [Tok.tn 0]
  | some a => Tok.tn 1 :: enc a

def decOpt {α : Type} (dec : List Tok → Option (α × List Tok)) (r : List Tok) :
    Option (Option α × List Tok) :=
  match decNat r with
  | some (0, r1) => some (none, r1)
  | some (1, r1) =>
    match dec r1 with
    | none => none
    | some (a, r2) => some (some a, r2)
  | _ => none

def encPairSN (p : String × Nat) : List Tok := [Tok.ts p.1, Tok.tn p.2]

def decPairSN : List Tok → Option ((String × Nat) × List Tok)
  | Tok.ts s :: Tok.tn n :: r => some ((s, n), r)
  | _ => none

def encMeta (m : Meta) : List Tok :=
  [Tok.ts m.lang, Tok.ts m.emb, Tok.ti m.chunk_size, Tok.ti m.overlap]

def decMeta : List Tok → Option (Meta × List Tok)
  | Tok.ts lang :: Tok.ts emb :: Tok.ti cs :: Tok.ti ov :: r => some (⟨lang, emb, cs, ov⟩, r)
  | _ => none

def encVectorizer (v : Vectorizer) : List Tok :=
  encList encPairSN v.vocab ++ encList encInt v.idf

def decVectorizer (r : List Tok) : Option (Vectorizer × List Tok) :=
  match decList decPairSN r with
  | none => none
  | some (vocab, r1) =>
    match decList decInt r1 with
    | none => none
    | some (idf, r2) => some (⟨vocab, idf⟩, r2)

def encodeIndex (idx : Index Nat) : List Tok :=
  encMeta idx.meta ++
    (encList encStr idx.chunks ++
      (encList (encList encNat) idx.vectors ++ encOpt encVectorizer idx.tfidf_vectorizer))

def decodeIndex (r : List Tok) : Option (Index Nat) :=
  match decMeta r with
  | none => none
  | some (m, r1) =>
    match decList decStr r1 with
    | none => none
    | some (chunks, r2) =>
      match decList (decList decNat) r2 with
      | none => none
      | some (vectors, r3) =>
        match decOpt decVectorizer r3 with
        | none => none
        | some (vz, _) => some ⟨m, chunks, vectors, vz⟩

/-- `indexer.save_index`: serialize the index dict as one opaque blob. -/
def save_index (idx : Index Nat) : List Tok := encodeIndex idx

/-- `indexer.load_index`: deserialize the blob; performs no validation of the
metadata or of the presence of the vectorizer. -/
def load_index (blob : List Tok) : Option (Index Nat) := decodeIndex blob

/-! ## Backend selection (`indexer._select_embedder`) -/

/-- Errors raised inside `build_index`; the spec calls the `ValueError` for a
bad backend name a `ConfigError`. -/
inductive IndexerError where
  | configError (msg : String)
deriving DecidableEq, Repr

/-- Python `str.lower()` on `String` (ASCII case mapping, which covers the
backend names involved). -/
def pyLower (s : String) : String := String.mk (s.data.map Char.toLower)

/-- `indexer._select_embedder` (the leading underscore is dropped for Lean):
`n = (name or "tfidf").lower()`, then dispatch on `n`.  The returned string
is the `emb_key` recorded in the index metadata; the embedder object itself
carries no information relevant to the claims (the sparse one is freshly
constructed, the dense one may fail to construct for environmental reasons
outside this model). -/
def select_embedder (name : Option String) : Except IndexerError String :=
  let base := match name with
    | none => "tfidf"
    | some s => if s = "" then "tfidf" else s
  let n := pyLower base
  if n = "tfidf" then .ok "tfidf"
  else if n = "sbert" then .ok "sbert"
  else .error (.configError ("Unknown embedding backend: " ++ base))

/-! ## Retriever (`retriever.query_to_vector` / `retriever.search`)

The retriever is modelled over `Index ℚ` (the numeric reading of the stored
float32 matrix) and is parametric in three environment-supplied functions:
`tfT` (the fitted vectorizer's `transform`, determined by the pickled
`Vectorizer` state), `sbT` (the SBERT encoder) and `simK` (the row kernel of
`sklearn.cosine_similarity`, float arithmetic).  Every claim about ranking,
counts and dimension checking is settled for all such functions. -/

/-- Errors raised by the retriever; the spec's names for the code's
`RuntimeError` (missing vectorizer), `ValueError` (unknown backend) and
scikit-learn's `ValueError` on incompatible shapes. -/
inductive RetrieverError where
  | missingVectorizer (msg : String)
  | unknownBackend (msg : String)
  | dimensionMismatch (msg : String)
deriving DecidableEq, Repr

/-- `retriever.query_to_vector`: dispatch on `index['meta']['emb']`. -/
def query_to_vector (tfT : Vectorizer → String → List ℚ) (sbT : String → List ℚ)
    (idx : Index ℚ) (text : String) : Except RetrieverError (List ℚ) :=
  if idx.meta.emb = "tfidf" then
    match idx.tfidf_vectorizer with
    | none => .error (.missingVectorizer "TF‑IDF vectorizer missing from index")
    | some v => .ok (tfT v text)
  else if idx.meta.emb = "sbert" then .ok (sbT text)
  else .error (.unknownBackend ("Unknown embedding backend: " ++ idx.meta.emb))

/-- `embeddings.cosine_sim`, i.e. `sklearn.cosine_similarity(a, b)`:
scikit-learn validates that both matrices have the same column count and
raises `ValueError` (\"Incompatible dimension for X and Y matrices\")
otherwise, then returns the row-wise similarity matrix. -/
def cosine_sim (simK : List ℚ → List ℚ → ℚ) (a b : List (List ℚ)) :
    Except RetrieverError (List (List ℚ)) :=
  if (a.headD []).length = (b.headD []).length then
    .ok (a.map fun x => b.map fun y => simK x y)
  else
    .error (.dimensionMismatch "Incompatible dimension for X and Y matrices")

/-- The deterministic first half of `search`:
`qv = query_to_vector(index, query); sims = cosine_sim(qv, vectors)[0]`. -/
def searchSims (tfT : Vectorizer → String → List ℚ) (sbT : String → List ℚ)
    (simK : List ℚ → List ℚ → ℚ) (idx : Index ℚ) (query : String) :
    Except RetrieverError (List ℚ) := do
  let qv ← query_to_vector tfT sbT idx query
  let m ← cosine_sim simK [qv] idx.vectors
  pure (m.headD [])

/-- The contract of `np.argsort(-sims)` with the default sort kind
(quicksort/introsort): some permutation of `0, …, N-1` arranging the scores
in non-increasing order.  The default kind is documented as not stable, so
the order of tied indices is not part of the contract. -/
def IsArgsortDesc (sims : List ℚ) (ord : List Nat) : Prop :=
  ord.Perm (List.range sims.length) ∧
    ord.Pairwise (fun i j => sims.getD j 0 ≤ sims.getD i 0)

/-- A hit of `search`: `(score, chunk, position)`. -/
abbrev Hit := ℚ × String × Nat

/-- `retriever.search` as a relation between inputs and an admissible result:
`order = np.argsort(-sims)`, then
`[(sims[i], chunks[i], i) for i in order[: max(1, k)]]`. -/
def searchRel (tfT : Vectorizer → String → List ℚ) (sbT : String → List ℚ)
    (simK : List ℚ → List ℚ → ℚ) (idx : Index ℚ) (query : String) (k : Int)
    (res : List Hit) : Prop :=
  ∃ sims ord, searchSims tfT sbT simK idx query = .ok sims ∧ IsArgsortDesc sims ord ∧
    res = (ord.take (max 1 k).toNat).map fun i => (sims.getD i 0, idx.chunks.getD i "", i)

/-- Scores are non-increasing along the hit list. -/
def ScoresDesc (res : List Hit) : Prop :=
  res.Pairwise fun a b => b.1 ≤ a.1

/-- The tie-break order asserted by the spec: among equal scores, the hit at
the smaller chunk position comes first. -/
def TieBreakAsc (res : List Hit) : Prop :=
  res.Pairwise fun a b => a.1 = b.1 → a.2.2 < b.2.2

/-! ## Concrete instantiations used by witnesses and counterexamples -/

/-- A concrete similarity kernel for witnesses and counterexamples; the
theorems hold for every kernel, and the concrete indexes fed to it have
identical vector rows, which tie the scores under any kernel whatsoever. -/
def headK (_ : List ℚ) (y : List ℚ) : ℚ := y.headD 0

/-- A concrete one-dimensional `transform` for witnesses. -/
def tfT1 (_ : Vectorizer) (_ : String) : List ℚ := [1]

/-- A concrete SBERT encoder stub for witnesses. -/
def sbT0 (_ : String) : List ℚ := [0]

end RagSpec

namespace RagSpec

/-! ## Windower lemmas -/

theorem groupWordsFuel_mem_length {cs : Nat} :
    ∀ (fuel : Nat) (l : List Word), ∀ c ∈ groupWordsFuel cs fuel l, c.length ≤ cs := by
  intro fuel
  induction fuel with
  | zero =>
    intro l c hc
    cases l with
    | nil => simp [groupWordsFuel] at hc
    | cons a rest => simp [groupWordsFuel] at hc
  | succ n ih =>
    intro l c hc
    cases l with
    | nil => simp [groupWordsFuel] at hc
    | cons a rest =>
      simp only [groupWordsFuel, List.mem_cons] at hc
      rcases hc with rfl | hc
      · simp
      · exact ih _ c hc

theorem groupWords_mem_length {cs : Nat} {l : List Word} :
    ∀ c ∈ groupWords cs l, c.length ≤ cs := by
  intro c hc
  unfold groupWords at hc
  split at hc
  · simp at hc
  · exact groupWordsFuel_mem_length _ _ c hc

theorem groupWordsFuel_nil {cs : Nat} : ∀ fuel : Nat, groupWordsFuel cs fuel [] = [] := by
  intro fuel
  cases fuel <;> rfl

theorem groupWordsFuel_dropLast {cs : Nat} :
    ∀ (fuel : Nat) (l : List Word), l.length ≤ fuel → 0 < cs →
      ∀ c ∈ (groupWordsFuel cs fuel l).dropLast, c.length = cs := by
  intro fuel
  induction fuel with
  | zero =>
    intro l hl _ c hc
    have hnil : l = [] := List.length_eq_zero.mp (Nat.le_zero.mp hl)
    subst hnil
    simp [groupWordsFuel] at hc
  | succ f ih =>
    intro l hl hcs c hc
    cases l with
    | nil => simp [groupWordsFuel] at hc
    | cons a rest =>
      simp only [groupWordsFuel] at hc
      cases hd : (a :: rest).drop cs with
      | nil =>
        rw [hd, groupWordsFuel_nil] at hc
        simp at hc
      | cons b t =>
        rw [hd] at hc
        have hlt : cs < (a :: rest).length := by
          by_contra hle
          rw [List.drop_eq_nil_of_le (Nat.le_of_not_lt hle)] at hd
          cases hd
        have hbt : (b :: t).length ≤ f := by
          have := congrArg List.length hd
          simp only [List.length_drop] at this
          simp only [List.length_cons] at *
          omega
        cases f with
        | zero => simp at hbt
        | succ f2 =>
          simp only [groupWordsFuel, List.dropLast, List.mem_cons] at hc
          rcases hc with rfl | hc
          · simp only [List.length_take]
            omega
          · have := ih (b :: t) hbt hcs c
            simp only [groupWordsFuel, List.dropLast] at this
            exact this hc

theorem groupWords_dropLast {cs : Nat} (hcs : 0 < cs) (s : List Word) :
    ∀ c ∈ (groupWords cs s).dropLast, c.length = cs := by
  intro c hc
  unfold groupWords at hc
  rw [if_neg (Nat.pos_iff_ne_zero.mp hcs)] at hc
  exact groupWordsFuel_dropLast s.length s le_rfl hcs c hc

theorem joinWindow_append_single (w : List (List Word)) (s : List Word) :
    joinWindow (w ++ [s]) = joinWindow w ++ s := by
  simp [joinWindow]

theorem seedWindow_count (ov : Nat) (c : List (List Word)) :
    (seedWindow ov c).2 = (joinWindow (seedWindow ov c).1).length ∧ (seedWindow ov c).2 ≤ ov := by
  unfold seedWindow
  split
  · split
    · simp [joinWindow]
    · refine ⟨by simp [joinWindow], ?_⟩
      simp only [lastN, List.length_drop]
      omega
  · simp [joinWindow]

theorem flushChunks_mem_length {cs ov : Nat} {st : WinState} (h : ChunkInv cs ov st) :
    ∀ c ∈ flushChunks st, c.length ≤ cs + ov := by
  intro c hc
  unfold flushChunks at hc
  split at hc
  · exact h.2.2 c hc
  · rcases List.mem_append.mp hc with hmem | hmem
    · exact h.2.2 c hmem
    · rcases List.mem_singleton.mp hmem with rfl
      exact h.1 ▸ h.2.1

theorem stepSentence_inv {cs ov : Nat} {st : WinState} (s : List Word)
    (h : ChunkInv cs ov st) : ChunkInv cs ov (stepSentence cs ov st s) := by
  unfold stepSentence
  split
  · rename_i hle
    refine ⟨?_, ?_, h.2.2⟩
    · simp [joinWindow_append_single, ← h.1]
    · exact le_trans hle (Nat.le_add_right _ _)
  · rename_i hgt
    split
    · rename_i hlong
      refine ⟨by simp [joinWindow], by simp, ?_⟩
      intro c hc
      rcases List.mem_append.mp hc with hmem | hmem
      · exact flushChunks_mem_length h c hmem
      · exact le_trans (groupWords_mem_length c hmem) (Nat.le_add_right _ _)
    · rename_i hshort
      have hw : s.length ≤ cs := Nat.le_of_not_lt hshort
      have hseed := seedWindow_count ov (flushChunks st)
      refine ⟨?_, ?_, flushChunks_mem_length h⟩
      · simp [joinWindow_append_single, ← hseed.1]
      · show (seedWindow ov (flushChunks st)).2 + s.length ≤ cs + ov
        have := hseed.2
        omega

theorem foldl_inv {cs ov : Nat} :
    ∀ (l : List (List Word)) (st : WinState), ChunkInv cs ov st →
      ChunkInv cs ov (l.foldl (stepSentence cs ov) st) := by
  intro l
  induction l with
  | nil => intro st h; exact h
  | cons s rest ih =>
    intro st h
    exact ih _ (stepSentence_inv s h)

theorem make_chunksCore_length_bound (cs ov : Nat) (sentences : List (List Word)) :
    ∀ c ∈ make_chunksCore cs ov sentences, c.length ≤ cs + ov := by
  have hinv : ChunkInv cs ov ⟨[], [], 0⟩ := ⟨by simp [joinWindow], by simp, by simp⟩
  exact flushChunks_mem_length (foldl_inv sentences _ hinv)

/-! ## Windower claim theorems -/

/-- C2 counterexample: with `overlap = chunk_size = 2` the code accepts the
parameters and windows normally — the claimed `ConfigError` for
`overlap ≥ chunk_size` is never raised (the source has no such guard). -/
theorem make_chunks_overlap_eq_chunk_size_accepted :
    make_chunks [["a"]] 2 2 = .ok [["a"]] := by decide

/-- C2 (amended): `make_chunks` raises ConfigError exactly for
`chunk_size ≤ 0` (message `chunk_size must be > 0`) and, when `chunk_size`
is positive, for `overlap < 0` (message `overlap must be >= 0`); every other
parameter combination — including `overlap ≥ chunk_size` — is accepted. -/
theorem make_chunks_validation (sentences : List (List Word)) (chunk_size overlap : Int) :
    (chunk_size ≤ 0 →
      make_chunks sentences chunk_size overlap =
        .error (.configError "chunk_size must be > 0")) ∧
    (0 < chunk_size → overlap < 0 →
      make_chunks sentences chunk_size overlap =
        .error (.configError "overlap must be >= 0")) ∧
    (0 < chunk_size → 0 ≤ overlap →
      make_chunks sentences chunk_size overlap =
        .ok (make_chunksCore chunk_size.toNat overlap.toNat sentences)) := by
  refine ⟨fun h1 => ?_, fun h1 h2 => ?_, fun h1 h2 => ?_⟩
  · simp [make_chunks, h1]
  · simp [make_chunks, Int.not_le.mpr h1, h2]
  · simp [make_chunks, Int.not_le.mpr h1, Int.not_lt.mpr h2]

theorem make_chunks_validation_witness :
    make_chunks [["a"]] 0 0 = .error (.configError "chunk_size must be > 0") :=
  (make_chunks_validation [["a"]] 0 0).1 (by decide)

/-- C3 counterexample: `chunk_size = 4`, `overlap = 3`, two four-word
sentences — no sentence exceeds `chunk_size` (so no hard split can occur),
yet the second emitted chunk has 7 words: the overlap seed (`b c d`) plus the
incoming sentence overflow the claimed `chunk_size` bound. -/
theorem make_chunks_chunk_exceeds_chunk_size :
    make_chunks [["a", "b", "c", "d"], ["e", "f", "g", "h"]] 4 3 =
        .ok [["a", "b", "c", "d"], ["b", "c", "d", "e", "f", "g", "h"]] ∧
      (∀ s ∈ [["a", "b", "c", "d"], ["e", "f", "g", "h"]], List.length s ≤ 4) ∧
      4 < (["b", "c", "d", "e", "f", "g", "h"] : List Word).length := by
  refine ⟨by decide, by decide, by decide⟩

/-- C3 (amended): for valid parameters every chunk produced by `make_chunks`
has word count at most `chunk_size + overlap` — the originally claimed bound
`chunk_size` can be exceeded by up to `overlap` words when a freshly seeded
window receives the sentence that caused the flush — and the groups produced
by hard-splitting an over-long sentence have exactly `chunk_size` words apart
from the last one. -/
theorem make_chunks_word_bound (sentences : List (List Word)) (chunk_size overlap : Int)
    (h1 : 0 < chunk_size) (h2 : 0 ≤ overlap) (r : List (List Word))
    (hr : make_chunks sentences chunk_size overlap = .ok r) :
    (∀ c ∈ r, c.length ≤ chunk_size.toNat + overlap.toNat) ∧
    (∀ s : List Word, chunk_size.toNat < s.length →
      ∀ c ∈ (groupWords chunk_size.toNat s).dropLast, c.length = chunk_size.toNat) := by
  have hok := (make_chunks_validation sentences chunk_size overlap).2.2 h1 h2
  rw [hok] at hr
  cases hr
  refine ⟨make_chunksCore_length_bound _ _ sentences, fun s _ => ?_⟩
  exact groupWords_dropLast (by omega) s

theorem make_chunks_word_bound_witness :
    (0 : Int) < 4 ∧ (0 : Int) ≤ 3 ∧
      (["b", "c", "d", "e", "f", "g", "h"] : List Word).length ≤
        (4 : Int).toNat + (3 : Int).toNat :=
  ⟨by decide, by decide,
    (make_chunks_word_bound [["a", "b", "c", "d"], ["e", "f", "g", "h"]] 4 3 (by decide)
        (by decide) [["a", "b", "c", "d"], ["b", "c", "d", "e", "f", "g", "h"]] (by decide)).1
      ["b", "c", "d", "e", "f", "g", "h"] (by decide)⟩

theorem flushChunks_flatten (st : WinState) :
    (flushChunks st).flatten = st.chunks.flatten ++ joinWindow st.window := by
  unfold flushChunks
  split
  · rename_i hw
    simp [hw, joinWindow]
  · simp [joinWindow]

theorem seedWindow_zero (c : List (List Word)) : seedWindow 0 c = ([], 0) := by
  simp [seedWindow]

theorem stepSentence_flatten_zero {cs : Nat} (st : WinState) (s : List Word)
    (hs : s.length ≤ cs) :
    (stepSentence cs 0 st s).chunks.flatten ++ joinWindow (stepSentence cs 0 st s).window =
      st.chunks.flatten ++ joinWindow st.window ++ s := by
  unfold stepSentence
  split
  · simp [joinWindow_append_single]
  · rename_i hgt
    split
    · rename_i hlong
      exact absurd hs (Nat.not_le.mpr hlong)
    · simp [seedWindow_zero, flushChunks_flatten, joinWindow]

theorem foldl_flatten_zero {cs : Nat} :
    ∀ (l : List (List Word)) (st : WinState), (∀ s ∈ l, s.length ≤ cs) →
      (l.foldl (stepSentence cs 0) st).chunks.flatten ++
          joinWindow (l.foldl (stepSentence cs 0) st).window =
        st.chunks.flatten ++ joinWindow st.window ++ l.flatten := by
  intro l
  induction l with
  | nil => intro st _; simp
  | cons s rest ih =>
    intro st hall
    have hs : s.length ≤ cs := hall s (by simp)
    have hrest : ∀ x ∈ rest, x.length ≤ cs := fun x hx => hall x (by simp [hx])
    calc (List.foldl (stepSentence cs 0) (stepSentence cs 0 st s) rest).chunks.flatten ++
          joinWindow (List.foldl (stepSentence cs 0) (stepSentence cs 0 st s) rest).window
        = (stepSentence cs 0 st s).chunks.flatten ++
            joinWindow (stepSentence cs 0 st s).window ++ rest.flatten := ih _ hrest
      _ = st.chunks.flatten ++ joinWindow st.window ++ s ++ rest.flatten := by
          rw [stepSentence_flatten_zero st s hs]
      _ = st.chunks.flatten ++ joinWindow st.window ++ (s :: rest).flatten := by
          simp

/-- C7: with `overlap = 0` and no sentence longer than `chunk_size`, the
words of the produced chunks are exactly the words of the input sentences, in
order, with nothing dropped and nothing duplicated. -/
theorem make_chunks_zero_overlap_conserves (sentences : List (List Word)) (chunk_size : Int)
    (h1 : 0 < chunk_size) (hall : ∀ s ∈ sentences, s.length ≤ chunk_size.toNat) :
    ∃ r, make_chunks sentences chunk_size 0 = .ok r ∧ r.flatten = sentences.flatten := by
  refine ⟨make_chunksCore chunk_size.toNat 0 sentences,
    (make_chunks_validation sentences chunk_size 0).2.2 h1 le_rfl, ?_⟩
  unfold make_chunksCore
  rw [flushChunks_flatten]
  have := foldl_flatten_zero sentences (⟨[], [], 0⟩ : WinState) hall
  simpa [joinWindow] using this

theorem make_chunks_zero_overlap_conserves_witness :
    (0 : Int) < 2 ∧
      (∀ s ∈ [["a", "b"], ["c"], ["d", "e"]], List.length s ≤ (2 : Int).toNat) ∧
      ∃ r, make_chunks [["a", "b"], ["c"], ["d", "e"]] 2 0 = .ok r ∧
        r.flatten = ([["a", "b"], ["c"], ["d", "e"]] : List (List Word)).flatten :=
  ⟨by decide, by decide,
    make_chunks_zero_overlap_conserves [["a", "b"], ["c"], ["d", "e"]] 2 (by decide)
      (by decide)⟩

/-! ## Segmenter lemmas -/

theorem dropWhile_eq_self_of_head {α : Type} {p : α → Bool} {l : List α}
    (h : ∀ x, l.head? = some x → p x = false) : l.dropWhile p = l := by
  cases l with
  | nil => rfl
  | cons a t => simp [List.dropWhile_cons, h a rfl]

theorem pyStrip_head_not_space {l : PyStr} {x : Char} (h : (pyStrip l).head? = some x) :
    isPySpace x = false := by
  have hpre : (pyStrip l) <+: l.dropWhile isPySpace :=
    List.rdropWhile_prefix isPySpace (l.dropWhile isPySpace)
  obtain ⟨t, ht⟩ := hpre
  have hne : pyStrip l ≠ [] := by
    intro hnil
    rw [hnil] at h
    cases h
  have hhead : (l.dropWhile isPySpace).head? = some x := by
    rw [← ht]
    cases hps : pyStrip l with
    | nil => exact absurd hps hne
    | cons a s =>
      rw [hps] at h
      simp at h
      simp [hps, h]
  cases hdw : l.dropWhile isPySpace with
  | nil => rw [hdw] at hhead; cases hhead
  | cons a s =>
    have hw : l.dropWhile isPySpace ≠ [] := by simp [hdw]
    have := List.head_dropWhile_not isPySpace l hw
    rw [List.head?_eq_head hw] at hhead
    cases hhead
    exact this

theorem pyStrip_idempotent (l : PyStr) : pyStrip (pyStrip l) = pyStrip l := by
  have hd : (pyStrip l).dropWhile isPySpace = pyStrip l :=
    dropWhile_eq_self_of_head fun x hx => pyStrip_head_not_space hx
  show ((pyStrip l).dropWhile isPySpace).rdropWhile isPySpace = pyStrip l
  rw [hd]
  exact List.rdropWhile_idempotent isPySpace (l.dropWhile isPySpace)

theorem cleanParts_mem {parts : List PyStr} {s : PyStr} (hs : s ∈ cleanParts parts) :
    s ≠ [] ∧ pyStrip s = s := by
  unfold cleanParts at hs
  obtain ⟨hmap, hfilt⟩ := List.mem_filter.mp hs
  obtain ⟨p, _, rfl⟩ := List.mem_map.mp hmap
  refine ⟨?_, pyStrip_idempotent p⟩
  intro hnil
  rw [hnil] at hfilt
  cases hfilt

/-! ## Segmenter claim theorem -/

/-- C9: `split_sentences` is a total function (no failure for any input);
whatever the language tag and the optional `hazm` pipeline, every returned
sentence is non-empty and trimmed, and empty, whitespace-only or null text
(null is read as empty text via `text or ""`) yields the empty sequence. -/
theorem split_sentences_contract (hazmOk : Bool) (sentTok : PyStr → List PyStr)
    (normalize : PyStr → PyStr) (text : Option PyStr) (lang : Option PyStr) :
    (∀ s ∈ split_sentences hazmOk sentTok normalize text lang,
      s ≠ [] ∧ pyStrip s = s) ∧
    (pyStrip (text.getD []) = [] →
      split_sentences hazmOk sentTok normalize text lang = []) := by
  constructor
  · intro s hs
    unfold split_sentences at hs
    split at hs
    · cases hs
    · split at hs
      · split at hs
        · exact cleanParts_mem hs
        · exact cleanParts_mem hs
      · exact cleanParts_mem hs
  · intro h
    unfold split_sentences
    simp [h]

theorem split_sentences_contract_witness :
    split_sentences false (fun _ => []) (fun t => t) (some "  \n ".toList) (some "fa".toList) =
      [] :=
  (split_sentences_contract false (fun _ => []) (fun t => t) (some "  \n ".toList)
    (some "fa".toList)).2 (by decide)

/-! ## Backend-selection claim theorem -/

/-- C10: `_select_embedder` treats a null or empty backend name as the
default `tfidf`, matches names case-insensitively after `.lower()`, and
raises the unknown-backend ConfigError exactly when the lowercased name is
neither `tfidf` nor `sbert`. -/
theorem select_embedder_spec :
    select_embedder none = .ok "tfidf" ∧
    select_embedder (some "") = .ok "tfidf" ∧
    (∀ s : String, s ≠ "" → pyLower s = "tfidf" → select_embedder (some s) = .ok "tfidf") ∧
    (∀ s : String, s ≠ "" → pyLower s = "sbert" → select_embedder (some s) = .ok "sbert") ∧
    (∀ s : String, s ≠ "" → pyLower s ≠ "tfidf" → pyLower s ≠ "sbert" →
      select_embedder (some s) =
        .error (.configError ("Unknown embedding backend: " ++ s))) := by
  refine ⟨by decide, by decide, ?_, ?_, ?_⟩
  · intro s h1 h2
    simp [select_embedder, h1, h2]
  · intro s h1 h2
    simp [select_embedder, h1, h2]
  · intro s h1 h2 h3
    simp [select_embedder, h1, h2, h3]

theorem select_embedder_spec_witness :
    select_embedder (some "TFIDF") = .ok "tfidf" :=
  select_embedder_spec.2.2.1 "TFIDF" (by decide) (by decide)

/-! ## Codec round-trip lemmas -/

theorem decListAux_enc {α : Type} (dec : List Tok → Option (α × List Tok)) (enc : α → List Tok)
    (h : ∀ (a : α) (r : List Tok), dec (enc a ++ r) = some (a, r)) :
    ∀ (l : List α) (r : List Tok),
      decListAux dec l.length ((l.map enc).flatten ++ r) = some (l, r) := by
  intro l
  induction l with
  | nil => intro r; rfl
  | cons a t ih =>
    intro r
    show decListAux dec (t.length + 1) ((enc a ++ (t.map enc).flatten) ++ r) = some (a :: t, r)
    rw [List.append_assoc]
    simp only [decListAux, h a, ih r]

theorem decList_enc {α : Type} (dec : List Tok → Option (α × List Tok)) (enc : α → List Tok)
    (h : ∀ (a : α) (r : List Tok), dec (enc a ++ r) = some (a, r)) :
    ∀ (l : List α) (r : List Tok), decList dec (encList enc l ++ r) = some (l, r) := by
  intro l r
  show decList dec (Tok.tn l.length :: ((l.map enc).flatten ++ r)) = some (l, r)
  simp only [decList, decNat]
  exact decListAux_enc dec enc h l r

theorem decList_encStr (l : List String) (r : List Tok) :
    decList decStr (encList encStr l ++ r) = some (l, r) :=
  decList_enc decStr encStr (fun _ _ => rfl) l r

theorem decList_encNat (l : List Nat) (r : List Tok) :
    decList decNat (encList encNat l ++ r) = some (l, r) :=
  decList_enc decNat encNat (fun _ _ => rfl) l r

theorem decList_encInt (l : List Int) (r : List Tok) :
    decList decInt (encList encInt l ++ r) = some (l, r) :=
  decList_enc decInt encInt (fun _ _ => rfl) l r

theorem decList_encPairSN (l : List (String × Nat)) (r : List Tok) :
    decList decPairSN (encList encPairSN l ++ r) = some (l, r) :=
  decList_enc decPairSN encPairSN (fun _ _ => rfl) l r

theorem decList_encMatrix (l : List (List Nat)) (r : List Tok) :
    decList (decList decNat) (encList (encList encNat) l ++ r) = some (l, r) :=
  decList_enc (decList decNat) (encList encNat) decList_encNat l r

theorem decMeta_enc (m : Meta) (r : List Tok) : decMeta (encMeta m ++ r) = some (m, r) := rfl

theorem decVectorizer_enc (v : Vectorizer) (r : List Tok) :
    decVectorizer (encVectorizer v ++ r) = some (v, r) := by
  show decVectorizer ((encList encPairSN v.vocab ++ encList encInt v.idf) ++ r) = some (v, r)
  rw [List.append_assoc]
  simp only [decVectorizer, decList_encPairSN, decList_encInt]

theorem decOpt_encVectorizer (o : Option Vectorizer) (r : List Tok) :
    decOpt decVectorizer (encOpt encVectorizer o ++ r) = some (o, r) := by
  cases o with
  | none => rfl
  | some v =>
    show decOpt decVectorizer (Tok.tn 1 :: (encVectorizer v ++ r)) = some (some v, r)
    simp only [decOpt, decNat, decVectorizer_enc]

/-! ## Persistence claim theorems -/

/-- C1: the persisted blob round-trips: loading what `save_index` wrote
reproduces the index exactly — in particular the chunk sequence
string-for-string in order, and the vector matrix entry-for-entry (the stored
32-bit patterns are preserved, so the values are numerically equal). -/
theorem load_index_save_index (idx : Index Nat) : load_index (save_index idx) = some idx := by
  show decodeIndex (encodeIndex idx) = some idx
  unfold encodeIndex decodeIndex
  rw [decMeta_enc]
  simp only [decList_encStr, decList_encMatrix]
  rw [← List.append_nil (encOpt encVectorizer idx.tfidf_vectorizer), decOpt_encVectorizer]

/-- C6 counterexample: `load_index` performs no validation at load time.
A blob whose metadata names the unknown backend `bogus` loads successfully,
and so does a blob claiming `tfidf` while carrying no vectorizer state — no
UnknownBackendError or MissingVectorizerError is raised during load. -/
theorem load_index_no_load_time_validation :
    load_index (save_index ⟨⟨"en", "bogus", 600, 120⟩, ["c"], [[0]], none⟩) =
        some ⟨⟨"en", "bogus", 600, 120⟩, ["c"], [[0]], none⟩ ∧
      load_index (save_index ⟨⟨"en", "tfidf", 600, 120⟩, ["c"], [[0]], none⟩) =
        some ⟨⟨"en", "tfidf", 600, 120⟩, ["c"], [[0]], none⟩ :=
  ⟨by decide, by decide⟩

/-! ## Retriever lemmas and claim theorems -/

/-- C6 (amended): the unknown-backend and missing-vectorizer failures happen
at query time, inside `query_to_vector` during `search` — not during load. -/
theorem query_to_vector_backend_errors (tfT : Vectorizer → String → List ℚ)
    (sbT : String → List ℚ) (idx : Index ℚ) (q : String) :
    (idx.meta.emb ≠ "tfidf" → idx.meta.emb ≠ "sbert" →
      query_to_vector tfT sbT idx q =
        .error (.unknownBackend ("Unknown embedding backend: " ++ idx.meta.emb))) ∧
    (idx.meta.emb = "tfidf" → idx.tfidf_vectorizer = none →
      query_to_vector tfT sbT idx q =
        .error (.missingVectorizer "TF‑IDF vectorizer missing from index")) := by
  constructor
  · intro h1 h2
    simp [query_to_vector, h1, h2]
  · intro h1 h2
    simp [query_to_vector, h1, h2]

theorem query_to_vector_backend_errors_witness :
    query_to_vector tfT1 sbT0 ⟨⟨"en", "bogus", 600, 120⟩, ["c"], [[0]], none⟩ "q" =
      .error (.unknownBackend ("Unknown embedding backend: " ++ "bogus")) :=
  (query_to_vector_backend_errors tfT1 sbT0 ⟨⟨"en", "bogus", 600, 120⟩, ["c"], [[0]], none⟩
    "q").1 (by decide) (by decide)

theorem searchSims_length {tfT : Vectorizer → String → List ℚ} {sbT : String → List ℚ}
    {simK : List ℚ → List ℚ → ℚ} {idx : Index ℚ} {q : String} {sims : List ℚ}
    (h : searchSims tfT sbT simK idx q = .ok sims) : sims.length = idx.vectors.length := by
  unfold searchSims at h
  cases hq : query_to_vector tfT sbT idx q with
  | error e => rw [hq] at h; cases h
  | ok qv =>
    rw [hq] at h
    by_cases hc : ([qv].headD []).length = (idx.vectors.headD []).length
    · simp only [bind, Except.bind, cosine_sim, if_pos hc, pure, Except.pure,
        Except.ok.injEq] at h
      subst h
      simp
    · simp only [bind, Except.bind, cosine_sim, if_neg hc] at h
      exact Except.noConfusion h

/-- C5: for a non-empty index, `search` returns exactly `min k N` hits when
`k ≥ 1` and `min 1 N` hits (that is, one hit) when `k < 1`, where `N` is the
chunk count — more hits than exist cannot be requested, and `k < 1` is
clamped to 1. -/
theorem search_hit_count (tfT : Vectorizer → String → List ℚ) (sbT : String → List ℚ)
    (simK : List ℚ → List ℚ → ℚ) (idx : Index ℚ) (q : String) (k : Int) (res : List Hit)
    (hN : 0 < idx.chunks.length) (hlen : idx.chunks.length = idx.vectors.length)
    (h : searchRel tfT sbT simK idx q k res) :
    (1 ≤ k → res.length = min k.toNat idx.chunks.length) ∧
    (k < 1 → res.length = min 1 idx.chunks.length) := by
  obtain ⟨sims, ord, hs, ⟨hperm, _⟩, hres⟩ := h
  have hlsims : sims.length = idx.vectors.length := searchSims_length hs
  have hord : ord.length = idx.chunks.length := by
    rw [hperm.length_eq, List.length_range, hlsims, hlen]
  have hresl : res.length = min (max 1 k).toNat ord.length := by
    rw [hres, List.length_map, List.length_take]
  constructor
  · intro hk
    rw [hresl, hord, max_eq_right hk]
  · intro hk
    rw [hresl, hord, max_eq_left (le_of_lt hk)]
    rfl

theorem search_hit_count_witness :
    ([((1 : ℚ), "a", 0), ((1 : ℚ), "b", 1)] : List Hit).length =
      min (5 : Int).toNat
        (Index.chunks (α := ℚ) ⟨⟨"en", "tfidf", 4, 0⟩, ["a", "b"], [[1], [1]], some ⟨[], []⟩⟩).length :=
  (search_hit_count tfT1 sbT0 headK ⟨⟨"en", "tfidf", 4, 0⟩, ["a", "b"], [[1], [1]], some ⟨[], []⟩⟩
      "q" 5 [(1, "a", 0), (1, "b", 1)] (by decide) (by decide)
      ⟨[1, 1], [0, 1], by decide, ⟨by decide, by decide⟩, by decide⟩).1 (by decide)

/-- C4 counterexample: an index with two identical vector rows ties the two
scores under any similarity kernel; `np.argsort`'s contract (default kind,
not stable) admits the order `[1, 0]`, producing the tied hits with
descending positions — the claimed ascending-position tie-break is not
guaranteed by the code. -/
theorem search_tie_order_not_guaranteed :
    searchRel tfT1 sbT0 headK ⟨⟨"en", "tfidf", 4, 0⟩, ["a", "b"], [[1], [1]], some ⟨[], []⟩⟩
        "q" 2 [(1, "b", 1), (1, "a", 0)] ∧
      ¬ TieBreakAsc [(1, "b", 1), (1, "a", 0)] := by
  constructor
  · exact ⟨[1, 1], [1, 0], by decide, ⟨by decide, by decide⟩, by decide⟩
  · intro hpw
    have := (List.pairwise_cons.mp hpw).1 (1, "a", 0) (by simp)
    exact absurd (this rfl) (by decide)

/-- C4 (amended): every admissible result of `search` is ordered by
non-increasing similarity score; the relative order of hits with equal
scores is not specified (the default `np.argsort` kind is not stable), so no
position-based tie-break is guaranteed. -/
theorem search_scores_non_increasing (tfT : Vectorizer → String → List ℚ)
    (sbT : String → List ℚ) (simK : List ℚ → List ℚ → ℚ) (idx : Index ℚ) (q : String)
    (k : Int) (res : List Hit) (h : searchRel tfT sbT simK idx q k res) : ScoresDesc res := by
  obtain ⟨sims, ord, _, ⟨_, hpw⟩, hres⟩ := h
  rw [hres]
  unfold ScoresDesc
  rw [List.pairwise_map]
  exact List.Pairwise.sublist (List.take_sublist _ _) hpw

theorem search_scores_non_increasing_witness :
    ScoresDesc [((1 : ℚ), "a", 0), ((1 : ℚ), "b", 1)] :=
  search_scores_non_increasing tfT1 sbT0 headK
    ⟨⟨"en", "tfidf", 4, 0⟩, ["a", "b"], [[1], [1]], some ⟨[], []⟩⟩ "q" 2
    [(1, "a", 0), (1, "b", 1)]
    ⟨[1, 1], [0, 1], by decide, ⟨by decide, by decide⟩, by decide⟩

/-- C8: whenever the reconstructed query vector's dimensionality differs from
the dimensionality `D` of the stored `N × D` matrix, the similarity step of
`search` fails with the DimensionMismatchError (scikit-learn's incompatible
dimension `ValueError`), and no hit list is an admissible search result. -/
theorem search_dimension_mismatch (tfT : Vectorizer → String → List ℚ)
    (sbT : String → List ℚ) (simK : List ℚ → List ℚ → ℚ) (idx : Index ℚ) (q : String)
    (k : Int) (qv : List ℚ) (D : Nat) (hq : query_to_vector tfT sbT idx q = .ok qv)
    (huni : ∀ row ∈ idx.vectors, row.length = D) (hne : idx.vectors ≠ [])
    (hdim : qv.length ≠ D) :
    searchSims tfT sbT simK idx q =
        .error (.dimensionMismatch "Incompatible dimension for X and Y matrices") ∧
      ∀ res, ¬ searchRel tfT sbT simK idx q k res := by
  have hhead : (idx.vectors.headD []).length = D := by
    cases hv : idx.vectors with
    | nil => exact absurd hv hne
    | cons v t => exact huni v (by rw [hv]; simp)
  have hcond : ¬ (([qv].headD []).length = (idx.vectors.headD []).length) := by
    rw [hhead]
    simpa using hdim
  have herr : searchSims tfT sbT simK idx q =
      .error (.dimensionMismatch "Incompatible dimension for X and Y matrices") := by
    unfold searchSims
    rw [hq]
    simp only [bind, Except.bind]
    unfold cosine_sim
    rw [if_neg hcond]
  refine ⟨herr, ?_⟩
  rintro res ⟨sims, ord, hs, _, _⟩
  rw [herr] at hs
  cases hs

theorem search_dimension_mismatch_witness :
    searchSims tfT1 sbT0 headK ⟨⟨"en", "tfidf", 4, 0⟩, ["c"], [[0, 0]], some ⟨[], []⟩⟩ "q" =
      .error (.dimensionMismatch "Incompatible dimension for X and Y matrices") :=
  (search_dimension_mismatch tfT1 sbT0 headK
      ⟨⟨"en", "tfidf", 4, 0⟩, ["c"], [[0, 0]], some ⟨[], []⟩⟩ "q" 1 [1] 2 (by decide)
      (by decide) (by decide) (by decide)).1

end RagSpec

namespace RagSpecScratch
open RagSpec

example :
    make_chunks [["a", "b", "c", "d"], ["e", "f", "g", "h"]] 4 3 =
      .ok [["a", "b", "c", "d"], ["b", "c", "d", "e", "f", "g", "h"]] := by decide

example : make_chunks [["a"]] 2 2 = .ok [["a"]] := by decide

example :
    make_chunks [["a", "b"], ["c", "d", "e"]] 2 0 =
      .ok [["a", "b"], ["c", "d"], ["e"]] := by decide

example :
    (split_sentences false (fun _ => []) id
        (some "Hello world. This is a test! New line? OK.".toList) none).length = 4 := by
  decide

example :
    (split_sentences false (fun _ => []) id
        (some "Hello world. This is a test! New line? OK.".toList) none).head? =
      some "Hello world.".toList := by
  decide

example :
    split_sentences false (fun _ => []) id (some "   ".toList) (some "fa".toList) = [] := by
  decide

example :
    split_sentences false (fun _ => []) id (some "یک. دو\nسه".toList) (some "fa".toList) =
      ["یک".toList, "دو".toList, "سه".toList] := by
  decide

example : select_embedder none = .ok "tfidf" := by decide

example : select_embedder (some "") = .ok "tfidf" := by decide

example : select_embedder (some "TFIDF") = .ok "tfidf" := by decide

example : select_embedder (some "SBert") = .ok "sbert" := by decide

example :
    select_embedder (some "fasttext") =
      .error (.configError "Unknown embedding backend: fasttext") := by decide

example :
    load_index (save_index ⟨⟨"en", "tfidf", 600, 120⟩, ["c1", "c2"], [[7, 8], [9, 10]],
        some ⟨[("c1", 0)], [3]⟩⟩) =
      some ⟨⟨"en", "tfidf", 600, 120⟩, ["c1", "c2"], [[7, 8], [9, 10]], some ⟨[("c1", 0)], [3]⟩⟩ := by
  decide

example :
    searchSims tfT1 sbT0 headK ⟨⟨"en", "tfidf", 4, 0⟩, ["a", "b"], [[1], [1]], some ⟨[], []⟩⟩ "q" =
      .ok [1, 1] := by decide

example :
    searchSims tfT1 sbT0 headK ⟨⟨"en", "tfidf", 4, 0⟩, ["a"], [[1, 2]], some ⟨[], []⟩⟩ "q" =
      .error (.dimensionMismatch "Incompatible dimension for X and Y matrices") := by decide

example : IsArgsortDesc [1, 1] [1, 0] := by
  constructor
  · decide
  · decide

end RagSpecScratch
